import Mathlib

/-! discordGo: rank presentation and the `rlrank` / `valrank` command handlers

A shallow embedding of `src/main.go`.

* Go `string` values are Lean `String`s.  Every string the handlers see was decoded
  from JSON, so it is valid UTF-8 and the byte-indexed library routines used by the
  program (`strings.ReplaceAll`, `strings.Replace`, `strings.Split`, `strings.Title`,
  `fmt.Sprintf`) act on it rune by rune; they are written over `String.data`.
* Go `int` values are Lean `Int`s.  The program only compares and prints them, so no
  wrap-around arithmetic occurs.
* The handlers are written in a small monad that records the calls made to the chat
  gateway and the logger, and that stops at `log.Fatal*` (which calls `os.Exit(1)`).
-/

namespace DiscordGo

/-! ## Data model (`src/main.go`, lines 20-61) -/

structure Images where
  Small : String
  Large : String
  deriving DecidableEq

structure CurrentData where
  CurrentTier : Int
  CurrentTierPatched : String
  Images : Images
  RankingInTier : Int
  MMRChangeLastGame : Int
  ELO : Int
  GamesNeededForRating : Int
  deriving DecidableEq

structure Data where
  Name : String
  Tag : String
  PUUID : String
  CurrentData : CurrentData
  deriving DecidableEq

structure Response where
  Data : Data
  deriving DecidableEq

structure PlaylistData where
  Playlist : String
  MMR : Int
  Rank : Int
  Division : Int
  WinStreak : String
  RankName : String
  DivisionName : String
  DeltaUp : Int
  DeltaDown : Int
  deriving DecidableEq

structure RLResponse where
  DisplayName : String
  Rankings : List PlaylistData
  deriving DecidableEq

/-! ## Rank presentation (`src/main.go`, lines 94-133) -/

/-- Go `rankToColour`: a `switch` on the tier name with a `default` arm. -/
def rankToColour (rank : String) : Int :=
  if rank = "Unranked" then 0x797373
  else if rank = "Iron" then 0x3b3b3b
  else if rank = "Bronze" then 0x69450d
  else if rank = "Silver" then 0xbbbfbe
  else if rank = "Gold" then 0xdd9623
  else if rank = "Platinum" then 0x328d9e
  else if rank = "Diamond" then 0xd781e9
  else if rank = "Ascendant" then 0x1e8a51
  else if rank = "Immortal" then 0xb02639
  else if rank = "Radiant" then 0xfce29b
  else 0xFFFFFF

/-- The `%d` verb of `fmt` applied to an `int`: decimal digits, with a leading `-`
for negative values. -/
def fmtInt (n : Int) : String := toString n

/-- Go `getDelta`.  Both format strings start with a space. -/
def getDelta (deltaUp deltaDown : Int) : String :=
  if deltaUp > deltaDown then
    " ▼ " ++ fmtInt deltaDown
  else if deltaUp < deltaDown then
    " ▲ " ++ fmtInt deltaUp
  else
    ""

/-! ## Library routines used by the handlers -/

/-- The tables of Go package `unicode` that `strings.Title` consults for runes above
`unicode.MaxASCII`.  They are data of the Go distribution, not of this program, and
are taken as a parameter. -/
structure UnicodeTables where
  /-- The table lookup `unicode.To(unicode.TitleCase, r)`. -/
  toTitle : Char → Char
  /-- The predicate `unicode.IsLetter`. -/
  isLetter : Char → Bool
  /-- The predicate `unicode.IsDigit`. -/
  isDigit : Char → Bool
  /-- The predicate `unicode.IsSpace`. -/
  isSpace : Char → Bool

/-- The ASCII arm of `unicode.ToTitle`: `if 'a' <= r && r <= 'z' { r -= 'a' - 'A' }`. -/
def toTitleASCII (r : Char) : Char :=
  if 'a' ≤ r ∧ r ≤ 'z' then Char.ofNat (r.toNat - 32) else r

/-- Go `unicode.ToTitle`: ASCII is handled inline, everything else by table. -/
def ToTitle (U : UnicodeTables) (r : Char) : Char :=
  if r.toNat ≤ 0x7F then toTitleASCII r else U.toTitle r

/-- The ASCII arm of `isSeparator` in package `strings`: alphanumerics and the
underscore are not separators, every other ASCII rune is. -/
def isSeparatorASCII (r : Char) : Bool :=
  if '0' ≤ r ∧ r ≤ '9' then false
  else if 'a' ≤ r ∧ r ≤ 'z' then false
  else if 'A' ≤ r ∧ r ≤ 'Z' then false
  else if r = '_' then false
  else true

/-- Go `isSeparator` of package `strings`. -/
def isSeparator (U : UnicodeTables) (r : Char) : Bool :=
  if r.toNat ≤ 0x7F then isSeparatorASCII r
  else if U.isLetter r || U.isDigit r then false
  else U.isSpace r

/-- The closure that `strings.Title` hands to `strings.Map`, threaded through the
runes of the string: `prev` is the previous rune of the input. -/
def titleMap (U : UnicodeTables) : Char → List Char → List Char
  | _, [] => []
  | prev, r :: rs => (if isSeparator U prev then ToTitle U r else r) :: titleMap U r rs

/-- Go `strings.Title`; the closure starts with `prev := ' '`. -/
def Title (U : UnicodeTables) (s : String) : String := ⟨titleMap U ' ' s.data⟩

/-- Replacement of the first `n` occurrences of the rune `old` by `new`. -/
def replaceN (old new : Char) : Nat → List Char → List Char
  | 0, s => s
  | _, [] => []
  | n + 1, c :: cs =>
    if c = old then new :: replaceN old new n cs else c :: replaceN old new (n + 1) cs

/-- Go `strings.Replace(s, old, new, n)` for one-rune `old` and `new`, as the program
calls it: a negative `n` puts no limit on the number of replacements. -/
def Replace (s : String) (old new : Char) (n : Int) : String :=
  if n < 0 then ⟨replaceN old new s.length s.data⟩ else ⟨replaceN old new n.toNat s.data⟩

/-- Go `strings.ReplaceAll(s, old, new)`, which is `Replace(s, old, new, -1)`. -/
def ReplaceAll (s : String) (old new : Char) : String := Replace s old new (-1)

/-- The pieces of `strings.Split(s, sep)` for a one-rune separator; `cur` holds the
runes of the piece being read, newest first. -/
def splitAux (sep : Char) : List Char → List Char → List String
  | [], cur => [⟨cur.reverse⟩]
  | c :: cs, cur =>
    if c = sep then ⟨cur.reverse⟩ :: splitAux sep cs [] else splitAux sep cs (c :: cur)

/-- Go `strings.Split(s, sep)` for a one-rune separator. -/
def Split (s : String) (sep : Char) : List String := splitAux sep s.data []

/-! ### `fmt.Sprintf` called with a format and no operands

The `rlrank` handler passes its assembled message to `fmt.Sprintf` as the format
string, with no operands (`src/main.go`, line 291).  What follows is `doPrintf` of
package `fmt` for an empty operand list: literal text is copied, and each `%`
introduces a directive that is parsed (flags, argument index, width, precision, verb)
and, having no operand to print, is rendered as `%`, `%!verb(MISSING)`,
`%!verb(BADINDEX)` or `%!(NOVERB)`.  With no operands `argNum` stays `0`, no argument
index is ever in range, and `*` never finds an integer operand.  A `.` after the
width is read as the start of a precision also when it is the last rune of the
format; the message the handler passes is empty or ends in a newline, so that case
does not arise there. -/

/-- The flag runes accepted after `%`. -/
def isFlag (c : Char) : Bool :=
  c = '#' || c = '0' || c = '+' || c = '-' || c = ' '

/-- Go `tooLarge` of package `fmt`. -/
def tooLarge (x : Int) : Bool := x > 1000000 || x < -1000000

/-- The loop of `parsenum`: `num` and `isnum` are the results so far. -/
def parsenumLoop : Int → Bool → List Char → Int × Bool × List Char
  | num, isnum, [] => (num, isnum, [])
  | num, isnum, c :: cs =>
    if '0' ≤ c ∧ c ≤ '9' then
      if tooLarge num then (0, false, [])
      else parsenumLoop (num * 10 + (c.toNat - 48)) true cs
    else (num, isnum, c :: cs)

/-- Go `parsenum(s, start, end)` over the runes `s[start:end]`: the number, whether
one was read, and the runes from `newi` on.  On overflow `newi` is `end`. -/
def parsenum (s : List Char) : Int × Bool × List Char := parsenumLoop 0 false s

/-- Go `parseArgNumber`; `format` starts with the opening bracket.  Returns the
index, the number of runes to consume, and whether the number parsed. -/
def parseArgNumber (format : List Char) : Int × Nat × Bool :=
  if format.length < 3 then (0, 1, false)
  else
    let inner := (format.drop 1).takeWhile (fun c => c ≠ ']')
    if inner.length + 1 < format.length then
      -- the closing bracket is at position `inner.length + 1`
      match parsenum inner with
      | (width, ok, rest) =>
        if !ok || !rest.isEmpty then (0, inner.length + 2, false)
        else (width - 1, inner.length + 2, true)
    else (0, 1, false)

/-- Go `argNumber` with `numArgs = 0`: the runes left, `found`, and the new value of
`goodArgNum`.  The test `ok && 0 <= index && index < numArgs` cannot succeed. -/
def argNumber (format : List Char) (goodArgNum : Bool) : List Char × Bool × Bool :=
  match format with
  | [] => (format, false, goodArgNum)
  | c :: _ =>
    if c ≠ '[' then (format, false, goodArgNum)
    else
      match parseArgNumber format with
      | (_, wid, ok) => (format.drop wid, ok, false)

/-- One directive of `doPrintf`; `format` is what follows the `%`.  Returns what is
written to the buffer and the runes left to process. -/
def directive (format : List Char) : List Char × List Char := Id.run do
  let mut out : List Char := []
  let mut goodArgNum := true
  let mut afterIndex := false
  -- Do we have flags?
  let mut i := format.dropWhile isFlag
  -- Do we have an explicit argument index?
  (i, afterIndex, goodArgNum) := argNumber i goodArgNum
  -- Do we have width?
  if i.head? = some '*' then
    i := i.tail
    out := out ++ "%!(BADWIDTH)".data
    afterIndex := false
  else
    match parsenum i with
    | (_, widPresent, r) =>
      i := r
      if afterIndex && widPresent then
        goodArgNum := false
  -- Do we have precision?
  if i.head? = some '.' then
    i := i.tail
    if afterIndex then
      goodArgNum := false
    (i, afterIndex, goodArgNum) := argNumber i goodArgNum
    if i.head? = some '*' then
      i := i.tail
      out := out ++ "%!(BADPREC)".data
      afterIndex := false
    else
      match parsenum i with
      | (_, _, r) => i := r
  if !afterIndex then
    (i, afterIndex, goodArgNum) := argNumber i goodArgNum
  match i with
  | [] => return (out ++ "%!(NOVERB)".data, [])
  | verb :: r =>
    if verb = '%' then
      return (out ++ ['%'], r)
    else if !goodArgNum then
      return (out ++ "%!".data ++ [verb] ++ "(BADINDEX)".data, r)
    else
      -- `argNum >= len(a)`: no operand is left for the verb
      return (out ++ "%!".data ++ [verb] ++ "(MISSING)".data, r)

/-- The format loop of `doPrintf`; `skip` counts the runes of the current directive
that are still to be passed over. -/
def doPrintf : List Char → Nat → List Char
  | [], _ => []
  | _ :: cs, skip + 1 => doPrintf cs skip
  | c :: cs, 0 =>
    if c = '%' then
      (directive cs).1 ++ doPrintf cs (cs.length - (directive cs).2.length)
    else c :: doPrintf cs 0

/-- Go `fmt.Sprintf(format)` with no operands. -/
def Sprintf (format : String) : String := ⟨doPrintf format.data 0⟩

/-! ## Rocket League message (`src/main.go`, lines 267-275) -/

/-- The playlist name as displayed:
`strings.Title(strings.Replace(strings.ReplaceAll(p, "_", " "), "v", "V", 1))`. -/
def formatPlaylist (U : UnicodeTables) (playlist : String) : String :=
  Title U (Replace (ReplaceAll playlist '_' ' ') 'v' 'V' 1)

/-- What one pass of the loop body appends to `message` for a ranked entry:
`fmt.Sprintf("%s: %s %s (%d%s)\n", ...)`. -/
def rankLine (U : UnicodeTables) (rank : PlaylistData) : String :=
  formatPlaylist U rank.Playlist ++ ": " ++ rank.RankName ++ " " ++ rank.DivisionName
    ++ " (" ++ fmtInt rank.MMR ++ getDelta rank.DeltaUp rank.DeltaDown ++ ")\n"

/-- The loop `for _, rank := range rlResponse.Rankings` with its `continue`; `message`
is the accumulator. -/
def rankingsLoop (U : UnicodeTables) : String → List PlaylistData → String
  | message, [] => message
  | message, rank :: rest =>
    if rank.Playlist = "unranked" then rankingsLoop U message rest
    else rankingsLoop U (message ++ rankLine U rank) rest

/-! ## The gateway, the logger and the process -/

/-- A `discordgo.MessageEmbed`, with the fields the handlers set.  A field the
composite literal leaves out has Go's zero value (`""`, `0`) and is then omitted
from the message sent. -/
structure MessageEmbed where
  Title : String
  Description : String := ""
  Color : Int := 0
  deriving DecidableEq

/-- What a handler does to the outside world, in order. -/
inductive Event where
  /-- The call `s.InteractionRespond` with a deferred, ephemeral response. -/
  | deferredResponse
  /-- The call `s.InteractionResponseEdit` with one embed. -/
  | responseEdit (embed : MessageEmbed)
  /-- The call `http.Get`. -/
  | httpGet
  /-- A call of `log.Printf`. -/
  | logPrintf (text : String)
  /-- A call of `log.Fatalf` or `log.Fatalln`: the text is logged and the process
  ends with `os.Exit(1)`. -/
  | logFatal (text : String)
  deriving DecidableEq

/-- How a run of a handler ends. -/
inductive Outcome where
  /-- The handler returned to the dispatcher. -/
  | returned
  /-- The process was ended by `os.Exit(1)`. -/
  | exited
  /-- A run-time panic. -/
  | panicked
  deriving DecidableEq

/-- A handler computation: given the events so far, the events after it and either a
value or the way the run was cut short. -/
def Handler (α : Type) : Type := List Event → Except Outcome α × List Event

instance : Monad Handler where
  pure a := fun t => (Except.ok a, t)
  bind m f := fun t =>
    match m t with
    | (Except.ok a, t1) => f a t1
    | (Except.error o, t1) => (Except.error o, t1)

/-- Record one event. -/
def emit (e : Event) : Handler Unit := fun t => (Except.ok (), t ++ [e])

/-- Go `log.Fatalf` / `log.Fatalln`: log, then `os.Exit(1)`; nothing after it runs. -/
def logFatal {α : Type} (text : String) : Handler α :=
  fun t => (Except.error Outcome.exited, t ++ [Event.logFatal text])

/-- A run-time panic (index out of range). -/
def goPanic {α : Type} : Handler α := fun t => (Except.error Outcome.panicked, t)

/-- The result of running a handler from an empty event list. -/
structure Run where
  outcome : Outcome
  events : List Event
  deriving DecidableEq

/-- Run a handler body. -/
def Handler.run (h : Handler Unit) : Run :=
  match h [] with
  | (Except.ok _, t) => ⟨Outcome.returned, t⟩
  | (Except.error o, t) => ⟨o, t⟩

/-- The embeds of the response edits of a run, in order. -/
def Run.edits (r : Run) : List MessageEmbed :=
  r.events.filterMap fun e =>
    match e with
    | Event.responseEdit m => some m
    | _ => none

/-- Everything the outside world answers during one invocation.  `α` is the type the
response body is decoded into. -/
structure World (α : Type) where
  /-- The options of the invocation, as (name, string value), in the order given.
  Every option the two commands declare is of string type. -/
  options : List (String × String)
  /-- The error returned by `s.InteractionRespond`, if any. -/
  respondErr : Option String
  /-- Whether `godotenv.Load(".env")` succeeds when the handler builds the URL. -/
  dotenvLoads : Bool
  /-- The error returned by `http.Get`, if any. -/
  httpErr : Option String
  /-- What `json.Unmarshal` leaves in its target, and the error it returns. -/
  unmarshal : α × Option String
  /-- The error returned by `s.InteractionResponseEdit`, if any. -/
  editErr : Option String

/-- The loop that fills `optionMap` followed by a lookup: a later option of the same
name overwrites an earlier one. -/
def optionMap (options : List (String × String)) (name : String) : Option String :=
  (options.reverse.find? fun o => o.1 = name).map fun o => o.2

/-- Go `goDotEnvVariable`: fatal when `.env` cannot be loaded. -/
def goDotEnvVariable {α : Type} (w : World α) : Handler Unit :=
  if w.dotenvLoads then pure () else logFatal "Error loading .env file"

/-- The deferred acknowledgment both handlers start with (lines 231-239, 307-315). -/
def deferResponse {α : Type} (w : World α) : Handler Unit := do
  emit Event.deferredResponse
  match w.respondErr with
  | some err => emit (Event.logPrintf ("Error sending deferred response: " ++ err))
  | none => pure ()

/-- The call `s.InteractionResponseEdit` with one embed; returns its error. -/
def interactionResponseEdit {α : Type} (w : World α) (embed : MessageEmbed) :
    Handler (Option String) := do
  emit (Event.responseEdit embed)
  pure w.editErr

/-- Go `commandHandlers["rlrank"]` (lines 222-298). -/
def rlrank (U : UnicodeTables) (w : World RLResponse) : Handler Unit := do
  deferResponse w
  let some _platform := optionMap w.options "platform"
    | logFatal "Error getting platform"
  let some username := optionMap w.options "username"
    | logFatal "Error getting username"
  goDotEnvVariable w
  emit Event.httpGet
  if let some err := w.httpErr then
    logFatal err
  let rlResponse := w.unmarshal.1
  let mut err := w.unmarshal.2
  let message := rankingsLoop U "" rlResponse.Rankings
  if let some e := err then
    (logFatal e : Handler Unit)
    err ← interactionResponseEdit w { Title := "Failed to get rank for " ++ username }
  err ← interactionResponseEdit w
    { Title := "Ranks for " ++ rlResponse.DisplayName, Description := Sprintf message }
  if let some e := err then
    emit (Event.logPrintf ("Error editing response: " ++ e))

/-- Go `commandHandlers["valrank"]` (lines 299-385). -/
def valrank (w : World Response) : Handler Unit := do
  deferResponse w
  let some _region := optionMap w.options "region"
    | logFatal "Error getting region"
  let some username := optionMap w.options "username"
    | logFatal "Error getting username"
  let some tag := optionMap w.options "tag"
    | logFatal "Error getting tag"
  goDotEnvVariable w
  emit Event.httpGet
  if let some err := w.httpErr then
    logFatal err
  let responseData := w.unmarshal.1
  if let some error := w.unmarshal.2 then
    (logFatal error : Handler Unit)
    let _ ← interactionResponseEdit w
      { Title := "Failed to get ranks for " ++ username ++ "#" ++ tag }
    return
  -- check if the user exists
  if responseData.Data.Name = "" then
    let _ ← interactionResponseEdit w
      { Title := "Failed to get ranks for " ++ username ++ "#" ++ tag }
    return
  let some firstWord := (Split responseData.Data.CurrentData.CurrentTierPatched ' ').head?
    | goPanic
  let err ← interactionResponseEdit w
    { Title := "Rank for " ++ responseData.Data.Name ++ "#" ++ responseData.Data.Tag,
      Description := "Rank: " ++ responseData.Data.CurrentData.CurrentTierPatched
        ++ "\nELO: " ++ fmtInt responseData.Data.CurrentData.ELO
        ++ "\nMMR Last Game: " ++ fmtInt responseData.Data.CurrentData.MMRChangeLastGame,
      Color := rankToColour firstWord }
  if let some e := err then
    emit (Event.logPrintf ("Error editing response: " ++ e))

/-! ## Definitions used in the statements -/

/-- The ten tier names `rankToColour` has an arm for. -/
def knownTiers : List String :=
  ["Unranked", "Iron", "Bronze", "Silver", "Gold", "Platinum", "Diamond", "Ascendant",
    "Immortal", "Radiant"]

/-- The part of a string before its first space (the whole string when it has none). -/
def firstWord (s : String) : String := ⟨s.data.takeWhile fun c => c ≠ ' '⟩

/-- The entries of a rankings sequence whose playlist is not `"unranked"`, in order. -/
def rankedEntries (rankings : List PlaylistData) : List PlaylistData :=
  rankings.filter fun rank => rank.Playlist ≠ "unranked"

/-- The two facts about the case tables above ASCII that idempotence of
`strings.Title` rests on: title-casing a rune twice is title-casing it once, and
title-casing does not move a rune into or out of the separators. -/
def UnicodeTables.CaseStable (U : UnicodeTables) : Prop :=
  ∀ r : Char, 0x7F < r.toNat →
    ToTitle U (ToTitle U r) = ToTitle U r ∧ isSeparator U (ToTitle U r) = isSeparator U r

/-- The rows of the `unicode` tables for the Latin-1 Supplement block (U+0080 to
U+00FF) and for the two title-case targets outside it; every other rune is left
alone and is in no class. -/
def latin1Tables : UnicodeTables where
  toTitle r :=
    if 0xE0 ≤ r.toNat ∧ r.toNat ≤ 0xFE ∧ r.toNat ≠ 0xF7 then Char.ofNat (r.toNat - 32)
    else if r.toNat = 0xFF then Char.ofNat 0x178
    else if r.toNat = 0xB5 then Char.ofNat 0x39C
    else r
  isLetter r :=
    r.toNat = 0xAA || r.toNat = 0xB5 || r.toNat = 0xBA ||
      (0xC0 ≤ r.toNat && r.toNat ≤ 0xFF && r.toNat != 0xD7 && r.toNat != 0xF7) ||
      r.toNat = 0x178 || r.toNat = 0x39C
  isDigit _ := false
  isSpace r := r.toNat = 0x85 || r.toNat = 0xA0

/-! ## Sample invocations -/

/-- A playlist entry with the fields the message uses. -/
def entry (playlist rankName divisionName : String) (mmr deltaUp deltaDown : Int) :
    PlaylistData :=
  { Playlist := playlist, MMR := mmr, Rank := 0, Division := 0, WinStreak := "",
    RankName := rankName, DivisionName := divisionName, DeltaUp := deltaUp,
    DeltaDown := deltaDown }

/-- An `rlrank` invocation for user `Foo` on `steam` in which every call succeeds and
the body decodes to `r`. -/
def rlWorld (r : RLResponse) : World RLResponse :=
  { options := [("username", "Foo"), ("platform", "steam")], respondErr := none,
    dotenvLoads := true, httpErr := none, unmarshal := (r, none), editErr := none }

/-- A `Response` whose fields other than name, tag and tier are zero. -/
def valResponse (name tag tier : String) : Response :=
  { Data := { Name := name, Tag := tag, PUUID := "",
              CurrentData := { CurrentTier := 0, CurrentTierPatched := tier,
                               Images := { Small := "", Large := "" }, RankingInTier := 0,
                               MMRChangeLastGame := 0, ELO := 0,
                               GamesNeededForRating := 0 } } }

/-- A `valrank` invocation for `Foo#1234` in `eu` in which every call succeeds and the
body decodes to `r`. -/
def valWorld (r : Response) : World Response :=
  { options := [("username", "Foo"), ("tag", "1234"), ("region", "eu")],
    respondErr := none, dotenvLoads := true, httpErr := none, unmarshal := (r, none),
    editErr := none }

/-- The response of end-to-end scenario 1. -/
def scenarioOne : RLResponse :=
  { DisplayName := "Foo", Rankings := [entry "ranked_duos" "Diamond" "II" 900 5 5] }

/-- A response with two ranked entries, the first of which has a rank name that
reads as a directive with a nine-digit width. -/
def hugeWidthResponse : RLResponse :=
  { DisplayName := "Foo",
    Rankings := [entry "ranked_duos" "%999999999" "II" 900 5 5,
                 entry "ranked_standard" "Gold" "I" 700 3 3] }

/-- A response with two ranked entries, with an opening bracket after a percent sign
in the first and a closing bracket in the second. -/
def bracketResponse : RLResponse :=
  { DisplayName := "Foo",
    Rankings := [entry "ranked_duos" "%[" "II" 900 5 5,
                 entry "ranked_standard" "Gold" "]" 700 3 3] }

/-- Scenario 1 with the rank name `%d`. -/
def percentVerbResponse : RLResponse :=
  { DisplayName := "Foo", Rankings := [entry "ranked_duos" "%d" "II" 900 5 5] }

/-- Scenario 1 with the rank name `Top 1%`. -/
def percentSignResponse : RLResponse :=
  { DisplayName := "Foo", Rankings := [entry "ranked_duos" "Top 1%" "II" 900 5 5] }

/-- A `valrank` invocation in which the body does not decode. -/
def decodeFailureWorld : World Response :=
  { options := [("username", "Foo"), ("tag", "1234"), ("region", "eu")],
    respondErr := none, dotenvLoads := true, httpErr := none,
    unmarshal := (valResponse "" "" "", some "unexpected end of JSON input"),
    editErr := none }

/-- An `rlrank` invocation in which `http.Get` returns a transport error. -/
def transportFailureWorld : World RLResponse :=
  { options := [("username", "Foo"), ("platform", "steam")], respondErr := none,
    dotenvLoads := true, httpErr := some "dial tcp: connection refused",
    unmarshal := ({ DisplayName := "", Rankings := [] }, none), editErr := none }

/-- A `valrank` invocation that carries no `region` option. -/
def missingRegionWorld : World Response :=
  { options := [("username", "Foo"), ("tag", "1234")], respondErr := none,
    dotenvLoads := true, httpErr := none, unmarshal := (valResponse "" "" "", none),
    editErr := none }

/-! ## Lemmas on the library routines -/

theorem doPrintf_of_no_percent (s : List Char) (h : '%' ∉ s) : doPrintf s 0 = s := by
  induction s with
  | nil => rfl
  | cons c cs ih =>
    have hc : c ≠ '%' := fun e => h (e ▸ List.mem_cons_self _ _)
    have hcs : '%' ∉ cs := fun m => h (List.mem_cons_of_mem _ m)
    simp [doPrintf, hc, ih hcs]

/-- A format without a percent sign is returned as it is. -/
theorem Sprintf_of_no_percent (s : String) (h : '%' ∉ s.data) : Sprintf s = s := by
  simp [Sprintf, doPrintf_of_no_percent s.data h]

/-- The model of `Sprintf` on the malformed directives exercised by the tests of
package `fmt`, with the operands left out. -/
theorem Sprintf_vectors :
    Sprintf "hi%d" = "hi%!d(MISSING)" ∧ Sprintf "100%%" = "100%" ∧
    Sprintf "%[d" = "%!d(BADINDEX)" ∧ Sprintf "%[]d" = "%!d(BADINDEX)" ∧
    Sprintf "%[-3]d" = "%!d(BADINDEX)" ∧ Sprintf "%[99]d" = "%!d(BADINDEX)" ∧
    Sprintf "%[3]" = "%!(NOVERB)" ∧ Sprintf "%[1].2d" = "%!d(BADINDEX)" ∧
    Sprintf "%[1]2d" = "%!d(BADINDEX)" ∧ Sprintf "%3.[2]d" = "%!d(BADINDEX)" ∧
    Sprintf "%.[2]d" = "%!d(BADINDEX)" ∧ Sprintf "%.[]" = "%!](BADINDEX)" ∧
    Sprintf "%2147483648d" = "%!(NOVERB)" ∧ Sprintf "%-2147483648d" = "%!(NOVERB)" ∧
    Sprintf "%.2147483648d" = "%!(NOVERB)" ∧ Sprintf "%" = "%!(NOVERB)" := by
  decide

theorem join_cons (x : String) (xs : List String) :
    String.join (x :: xs) = x ++ String.join xs := by
  have key : ∀ (l : List String) (a : String),
      l.foldl (fun r s => r ++ s) a = a ++ l.foldl (fun r s => r ++ s) "" := by
    intro l
    induction l with
    | nil => intro a; simp
    | cons y ys ih =>
      intro a
      simp only [List.foldl_cons]
      rw [ih (a ++ y), ih ("" ++ y)]
      simp [String.append_assoc]
  simp only [String.join, List.foldl_cons]
  rw [key xs ("" ++ x)]
  simp

/-- The loop appends one line per ranked entry, in the order of the entries. -/
theorem rankingsLoop_eq (U : UnicodeTables) (rankings : List PlaylistData) (message : String) :
    rankingsLoop U message rankings =
      message ++ String.join ((rankedEntries rankings).map (rankLine U)) := by
  induction rankings generalizing message with
  | nil => simp [rankingsLoop, rankedEntries, String.join]
  | cons rank rest ih =>
    by_cases h : rank.Playlist = "unranked"
    · simp [rankingsLoop, h, ih, rankedEntries]
    · simp [rankingsLoop, h, ih, join_cons, String.append_assoc, rankedEntries]

theorem splitAux_head (sep : Char) (s cur : List Char) :
    (splitAux sep s cur).head? = some ⟨cur.reverse ++ s.takeWhile fun c => c ≠ sep⟩ := by
  induction s generalizing cur with
  | nil => simp [splitAux]
  | cons c cs ih =>
    by_cases h : c = sep
    · simp [splitAux, h]
    · simp [splitAux, h, ih]

/-- The result of `strings.Split(s, " ")` always has a first element. -/
theorem Split_head (s : String) : (Split s ' ').head? = some (firstWord s) := by
  simp [Split, firstWord, splitAux_head]

set_option maxRecDepth 100000 in
theorem ascii_title_facts : ∀ n : Fin 128,
    (toTitleASCII (Char.ofNat n)).toNat ≤ 0x7F ∧
    toTitleASCII (toTitleASCII (Char.ofNat n)) = toTitleASCII (Char.ofNat n) ∧
    isSeparatorASCII (toTitleASCII (Char.ofNat n)) = isSeparatorASCII (Char.ofNat n) := by
  decide

theorem ascii_title_stable (r : Char) (h : r.toNat ≤ 0x7F) :
    (toTitleASCII r).toNat ≤ 0x7F ∧ toTitleASCII (toTitleASCII r) = toTitleASCII r ∧
    isSeparatorASCII (toTitleASCII r) = isSeparatorASCII r := by
  have := ascii_title_facts ⟨r.toNat, by omega⟩
  simpa using this

theorem ToTitle_stable (U : UnicodeTables) (hU : U.CaseStable) (r : Char) :
    ToTitle U (ToTitle U r) = ToTitle U r ∧ isSeparator U (ToTitle U r) = isSeparator U r := by
  by_cases h : r.toNat ≤ 0x7F
  · obtain ⟨h1, h2, h3⟩ := ascii_title_stable r h
    simp [ToTitle, isSeparator, h, h1, h2, h3]
  · exact hU r (by omega)

theorem titleMap_idem (U : UnicodeTables) (hU : U.CaseStable) (s : List Char) :
    ∀ p q : Char, isSeparator U p = isSeparator U q →
      titleMap U q (titleMap U p s) = titleMap U p s := by
  induction s with
  | nil => intro p q _; rfl
  | cons r rs ih =>
    intro p q hpq
    obtain ⟨h1, h2⟩ := ToTitle_stable U hU r
    by_cases hp : isSeparator U p = true
    · have hq : isSeparator U q = true := hpq ▸ hp
      simp [titleMap, hp, hq, h1, ih r (ToTitle U r) h2.symm]
    · have hp' : isSeparator U p = false := by simpa using hp
      have hq : isSeparator U q = false := hpq ▸ hp'
      simp [titleMap, hp', hq, ih r r rfl]

theorem replaceN_of_not_mem (old new : Char) (s : List Char) (h : old ∉ s) (n : Nat) :
    replaceN old new n s = s := by
  induction s generalizing n with
  | nil => cases n <;> rfl
  | cons c cs ih =>
    have hc : c ≠ old := fun e => h (e ▸ List.mem_cons_self _ _)
    have hcs : old ∉ cs := fun m => h (List.mem_cons_of_mem _ m)
    cases n with
    | zero => rfl
    | succ n => simp [replaceN, hc, ih hcs]

theorem formatPlaylist_of_clean (U : UnicodeTables) (s : String)
    (h1 : '_' ∉ s.data) (h2 : 'v' ∉ s.data) : formatPlaylist U s = Title U s := by
  have e1 : ReplaceAll s '_' ' ' = s := by
    simp [ReplaceAll, Replace, replaceN_of_not_mem _ _ _ h1]
  have e2 : Replace s 'v' 'V' 1 = s := by
    simp [Replace, replaceN_of_not_mem _ _ _ h2]
  simp [formatPlaylist, e1, e2]

set_option maxRecDepth 100000 in
theorem latin1_block_facts : ∀ n : Fin 256, 0x7F < (n : Nat) →
    ToTitle latin1Tables (ToTitle latin1Tables (Char.ofNat n)) =
      ToTitle latin1Tables (Char.ofNat n) ∧
    isSeparator latin1Tables (ToTitle latin1Tables (Char.ofNat n)) =
      isSeparator latin1Tables (Char.ofNat n) := by
  decide

theorem latin1Tables_caseStable : latin1Tables.CaseStable := by
  intro r hr
  by_cases h : r.toNat < 256
  · have := latin1_block_facts ⟨r.toNat, h⟩ hr
    simpa using this
  · have e : ToTitle latin1Tables r = r := by
      have h1 : ¬ r.toNat ≤ 0x7F := by omega
      have h2 : ¬ r.toNat ≤ 0xFE := by omega
      have h3 : r.toNat ≠ 0xFF := by omega
      have h4 : r.toNat ≠ 0xB5 := by omega
      simp [ToTitle, latin1Tables, h1, h2, h3, h4]
    rw [e, e]
    exact ⟨rfl, rfl⟩

/-! ## Lemmas on the handlers -/

/-- The run of `rlrank` when the options are present and every call succeeds. -/
theorem rlrank_run_ok (U : UnicodeTables) (w : World RLResponse) (platform username : String)
    (hp : optionMap w.options "platform" = some platform)
    (hu : optionMap w.options "username" = some username)
    (henv : w.dotenvLoads = true) (hget : w.httpErr = none) (hdec : w.unmarshal.2 = none) :
    (rlrank U w).run.outcome = Outcome.returned ∧
    (rlrank U w).run.events.head? = some Event.deferredResponse ∧
    (rlrank U w).run.edits =
      [{ Title := "Ranks for " ++ w.unmarshal.1.DisplayName,
         Description := Sprintf (rankingsLoop U "" w.unmarshal.1.Rankings), Color := 0 }] := by
  cases hre : w.respondErr <;> cases hed : w.editErr <;>
  simp [rlrank, Handler.run, Run.edits, deferResponse, goDotEnvVariable, emit, bind, pure,
    interactionResponseEdit, logFatal, hp, hu, henv, hget, hdec, hre, hed]

/-- The description sent by `rlrank` is the message of the ranked entries passed
through `fmt.Sprintf` as a format; when the message holds no percent sign it is the
message itself. -/
theorem rlrank_description (U : UnicodeTables) (w : World RLResponse)
    (platform username : String)
    (hp : optionMap w.options "platform" = some platform)
    (hu : optionMap w.options "username" = some username)
    (henv : w.dotenvLoads = true) (hget : w.httpErr = none) (hdec : w.unmarshal.2 = none) :
    (rlrank U w).run.edits =
      [{ Title := "Ranks for " ++ w.unmarshal.1.DisplayName,
         Description :=
          Sprintf (String.join ((rankedEntries w.unmarshal.1.Rankings).map (rankLine U))),
         Color := 0 }] ∧
    ('%' ∉ (String.join ((rankedEntries w.unmarshal.1.Rankings).map (rankLine U))).data →
      (rlrank U w).run.edits =
        [{ Title := "Ranks for " ++ w.unmarshal.1.DisplayName,
           Description :=
            String.join ((rankedEntries w.unmarshal.1.Rankings).map (rankLine U)),
           Color := 0 }]) := by
  have h := (rlrank_run_ok U w platform username hp hu henv hget hdec).2.2
  rw [rankingsLoop_eq] at h
  have e : ("" : String) ++
      String.join ((rankedEntries w.unmarshal.1.Rankings).map (rankLine U)) =
      String.join ((rankedEntries w.unmarshal.1.Rankings).map (rankLine U)) := by
    simp
  rw [e] at h
  refine ⟨h, fun hn => ?_⟩
  rw [h, Sprintf_of_no_percent _ hn]

/-- End-to-end scenario 1. -/
theorem rlrank_scenarioOne (U : UnicodeTables) :
    (rlrank U (rlWorld scenarioOne)).run.edits =
      [{ Title := "Ranks for Foo", Description := "Ranked Duos: Diamond II (900)\n",
         Color := 0 }] := by
  rfl

/-- The run of `valrank` when the options are present, every call succeeds and the
decoded name is empty. -/
theorem valrank_run_notFound (w : World Response) (region username tag : String)
    (hr : optionMap w.options "region" = some region)
    (hu : optionMap w.options "username" = some username)
    (ht : optionMap w.options "tag" = some tag)
    (henv : w.dotenvLoads = true) (hget : w.httpErr = none)
    (hdec : w.unmarshal.2 = none) (hname : w.unmarshal.1.Data.Name = "") :
    (valrank w).run.outcome = Outcome.returned ∧
    (valrank w).run.events.head? = some Event.deferredResponse ∧
    (valrank w).run.edits =
      [{ Title := "Failed to get ranks for " ++ username ++ "#" ++ tag,
         Description := "", Color := 0 }] := by
  cases hre : w.respondErr <;>
  simp [valrank, Handler.run, Run.edits, deferResponse, goDotEnvVariable, emit, bind, pure,
    interactionResponseEdit, hr, hu, ht, henv, hget, hdec, hname, hre]

/-- The run of `valrank` when the options are present, every call succeeds and the
decoded name is not empty. -/
theorem valrank_run_found (w : World Response) (region username tag : String)
    (hr : optionMap w.options "region" = some region)
    (hu : optionMap w.options "username" = some username)
    (ht : optionMap w.options "tag" = some tag)
    (henv : w.dotenvLoads = true) (hget : w.httpErr = none)
    (hdec : w.unmarshal.2 = none) (hname : w.unmarshal.1.Data.Name ≠ "") :
    (valrank w).run.outcome = Outcome.returned ∧
    (valrank w).run.events.head? = some Event.deferredResponse ∧
    (valrank w).run.edits =
      [{ Title := "Rank for " ++ w.unmarshal.1.Data.Name ++ "#" ++ w.unmarshal.1.Data.Tag,
         Description := "Rank: " ++ w.unmarshal.1.Data.CurrentData.CurrentTierPatched
           ++ "\nELO: " ++ fmtInt w.unmarshal.1.Data.CurrentData.ELO
           ++ "\nMMR Last Game: " ++ fmtInt w.unmarshal.1.Data.CurrentData.MMRChangeLastGame,
         Color := rankToColour
           (firstWord w.unmarshal.1.Data.CurrentData.CurrentTierPatched) }] := by
  cases hre : w.respondErr <;> cases hed : w.editErr <;>
  simp [valrank, Handler.run, Run.edits, deferResponse, goDotEnvVariable, emit, bind, pure,
    interactionResponseEdit, hr, hu, ht, henv, hget, hdec, hname, hre, hed, Split_head]

/-- Whatever the outside world answers, `rlrank` sends at most one edit. -/
theorem rlrank_edits_le_one (U : UnicodeTables) (w : World RLResponse) :
    (rlrank U w).run.edits.length ≤ 1 := by
  cases hp : optionMap w.options "platform" with
  | none =>
    cases hre : w.respondErr <;>
    simp [rlrank, Handler.run, Run.edits, deferResponse, emit, bind, logFatal, hp, hre]
  | some platform =>
  cases hu : optionMap w.options "username" with
  | none =>
    cases hre : w.respondErr <;>
    simp [rlrank, Handler.run, Run.edits, deferResponse, emit, bind, logFatal, hp, hu, hre]
  | some username =>
  cases henv : w.dotenvLoads with
  | false =>
    cases hre : w.respondErr <;>
    simp [rlrank, Handler.run, Run.edits, deferResponse, goDotEnvVariable, emit, bind,
      logFatal, hp, hu, henv, hre]
  | true =>
  cases hget : w.httpErr with
  | some e =>
    cases hre : w.respondErr <;>
    simp [rlrank, Handler.run, Run.edits, deferResponse, goDotEnvVariable, emit, bind, pure,
      logFatal, hp, hu, henv, hget, hre]
  | none =>
  cases hdec : w.unmarshal.2 with
  | some e =>
    cases hre : w.respondErr <;>
    simp [rlrank, Handler.run, Run.edits, deferResponse, goDotEnvVariable, emit, bind, pure,
      logFatal, hp, hu, henv, hget, hdec, hre]
  | none =>
    rw [(rlrank_run_ok U w platform username hp hu henv hget hdec).2.2]
    exact le_refl _

/-- Whatever the outside world answers, `valrank` sends at most one edit. -/
theorem valrank_edits_le_one (w : World Response) : (valrank w).run.edits.length ≤ 1 := by
  cases hr : optionMap w.options "region" with
  | none =>
    cases hre : w.respondErr <;>
    simp [valrank, Handler.run, Run.edits, deferResponse, emit, bind, logFatal, hr, hre]
  | some region =>
  cases hu : optionMap w.options "username" with
  | none =>
    cases hre : w.respondErr <;>
    simp [valrank, Handler.run, Run.edits, deferResponse, emit, bind, logFatal, hr, hu, hre]
  | some username =>
  cases ht : optionMap w.options "tag" with
  | none =>
    cases hre : w.respondErr <;>
    simp [valrank, Handler.run, Run.edits, deferResponse, emit, bind, logFatal, hr, hu, ht, hre]
  | some tag =>
  cases henv : w.dotenvLoads with
  | false =>
    cases hre : w.respondErr <;>
    simp [valrank, Handler.run, Run.edits, deferResponse, goDotEnvVariable, emit, bind,
      logFatal, hr, hu, ht, henv, hre]
  | true =>
  cases hget : w.httpErr with
  | some e =>
    cases hre : w.respondErr <;>
    simp [valrank, Handler.run, Run.edits, deferResponse, goDotEnvVariable, emit, bind, pure,
      logFatal, hr, hu, ht, henv, hget, hre]
  | none =>
  cases hdec : w.unmarshal.2 with
  | some e =>
    cases hre : w.respondErr <;>
    simp [valrank, Handler.run, Run.edits, deferResponse, goDotEnvVariable, emit, bind, pure,
      logFatal, hr, hu, ht, henv, hget, hdec, hre]
  | none =>
  by_cases hname : w.unmarshal.1.Data.Name = ""
  · rw [(valrank_run_notFound w region username tag hr hu ht henv hget hdec hname).2.2]
    exact le_refl _
  · rw [(valrank_run_found w region username tag hr hu ht henv hget hdec hname).2.2]
    exact le_refl _

/-- When the options are present and `.env` loads, a transport error or a decode
error ends the process in either handler before any edit is sent. -/
theorem fetch_failure_exits (U : UnicodeTables) :
    (∀ (w : World RLResponse) (platform username : String),
      optionMap w.options "platform" = some platform →
      optionMap w.options "username" = some username → w.dotenvLoads = true →
      w.httpErr ≠ none ∨ w.unmarshal.2 ≠ none →
      (rlrank U w).run.outcome = Outcome.exited ∧ (rlrank U w).run.edits = []) ∧
    (∀ (w : World Response) (region username tag : String),
      optionMap w.options "region" = some region →
      optionMap w.options "username" = some username →
      optionMap w.options "tag" = some tag → w.dotenvLoads = true →
      w.httpErr ≠ none ∨ w.unmarshal.2 ≠ none →
      (valrank w).run.outcome = Outcome.exited ∧ (valrank w).run.edits = []) := by
  constructor
  · intro w platform username hp hu henv h
    cases hre : w.respondErr <;> cases hget : w.httpErr <;> cases hdec : w.unmarshal.2 <;>
    simp_all [rlrank, Handler.run, Run.edits, deferResponse, goDotEnvVariable, emit, bind,
      pure, interactionResponseEdit, logFatal]
  · intro w region username tag hr hu ht henv h
    cases hre : w.respondErr <;> cases hget : w.httpErr <;> cases hdec : w.unmarshal.2 <;>
    simp_all [valrank, Handler.run, Run.edits, deferResponse, goDotEnvVariable, emit, bind,
      pure, interactionResponseEdit, logFatal]

/-! ## The claims -/

/-- C1: on a response with two ranked entries the description sent by `rlrank` is
not made of one line per ranked entry.  The message assembled by the loop has both
lines, in order, but it is then used as a `fmt.Sprintf` format: a rank name that
reads as a directive with an over-long width makes `Sprintf` drop the rest of the
message, so the second ranked entry contributes nothing; a bracket after a percent
sign swallows the text up to the closing bracket, so two entries share one line. -/
theorem rlrank_description_loses_ranked_entries (U : UnicodeTables) :
    rankedEntries hugeWidthResponse.Rankings = hugeWidthResponse.Rankings ∧
    rankingsLoop U "" hugeWidthResponse.Rankings =
      "Ranked Duos: %999999999 II (900)\nRanked Standard: Gold I (700)\n" ∧
    (rlrank U (rlWorld hugeWidthResponse)).run.edits =
      [{ Title := "Ranks for Foo", Description := "Ranked Duos: %!(NOVERB)", Color := 0 }] ∧
    rankedEntries bracketResponse.Rankings = bracketResponse.Rankings ∧
    rankingsLoop U "" bracketResponse.Rankings =
      "Ranked Duos: %[ II (900)\nRanked Standard: Gold ] (700)\n" ∧
    (rlrank U (rlWorld bracketResponse)).run.edits =
      [{ Title := "Ranks for Foo", Description := "Ranked Duos: %! (BADINDEX)(700)\n",
         Color := 0 }] := by
  have m1 : rankingsLoop U "" hugeWidthResponse.Rankings =
      "Ranked Duos: %999999999 II (900)\nRanked Standard: Gold I (700)\n" := rfl
  have m2 : rankingsLoop U "" bracketResponse.Rankings =
      "Ranked Duos: %[ II (900)\nRanked Standard: Gold ] (700)\n" := rfl
  have s1 : Sprintf "Ranked Duos: %999999999 II (900)\nRanked Standard: Gold I (700)\n" =
      "Ranked Duos: %!(NOVERB)" := by decide
  have s2 : Sprintf "Ranked Duos: %[ II (900)\nRanked Standard: Gold ] (700)\n" =
      "Ranked Duos: %! (BADINDEX)(700)\n" := by decide
  have e1 := (rlrank_run_ok U (rlWorld hugeWidthResponse) "steam" "Foo"
    (by decide) (by decide) rfl rfl rfl).2.2
  have e2 := (rlrank_run_ok U (rlWorld bracketResponse) "steam" "Foo"
    (by decide) (by decide) rfl rfl rfl).2.2
  refine ⟨rfl, m1, ?_, rfl, m2, ?_⟩
  · rw [e1]
    show [({ Title := "Ranks for " ++ "Foo",
             Description := Sprintf (rankingsLoop U "" hugeWidthResponse.Rankings),
             Color := 0 } : MessageEmbed)] = _
    rw [m1, s1]
    rfl
  · rw [e2]
    show [({ Title := "Ranks for " ++ "Foo",
             Description := Sprintf (rankingsLoop U "" bracketResponse.Rankings),
             Color := 0 } : MessageEmbed)] = _
    rw [m2, s2]
    rfl

/-- C2: for a ranked entry whose rank name holds a percent sign, the line in the
description sent by `rlrank` is not the line
`<FormattedPlaylist>: <rankName> <divisionName> (<mmr><delta>)` that the loop
formats: the second `fmt.Sprintf` reads the percent sign as a directive without an
operand. -/
theorem rlrank_description_line_mangled (U : UnicodeTables) :
    String.join ((rankedEntries percentVerbResponse.Rankings).map (rankLine U)) =
      "Ranked Duos: %d II (900)\n" ∧
    (rlrank U (rlWorld percentVerbResponse)).run.edits =
      [{ Title := "Ranks for Foo", Description := "Ranked Duos: %!d(MISSING) II (900)\n",
         Color := 0 }] ∧
    String.join ((rankedEntries percentSignResponse.Rankings).map (rankLine U)) =
      "Ranked Duos: Top 1% II (900)\n" ∧
    (rlrank U (rlWorld percentSignResponse)).run.edits =
      [{ Title := "Ranks for Foo", Description := "Ranked Duos: Top 1%!I(MISSING)I (900)\n",
         Color := 0 }] :=
  ⟨rfl, rfl, rfl, rfl⟩

/-- C3, as stated, fails: for `a > b` the result starts with a space, so
`getDelta 2 1` is not the down-arrow, one space and `1`. -/
theorem getDelta_without_leading_space_fails :
    getDelta 2 1 = " ▼ 1" ∧ getDelta 2 1 ≠ "▼ " ++ fmtInt 1 ∧
    getDelta 1 2 = " ▲ 1" ∧ getDelta 1 2 ≠ "▲ " ++ fmtInt 1 := by
  decide

/-- C3, amended: for all integers `a` and `b`, `getDelta a b` is a space, the
down-arrow, a space and decimal `b` when `a > b`; a space, the up-arrow, a space and
decimal `a` when `a < b`; and the empty string when `a = b`. -/
theorem getDelta_cases (a b : Int) :
    (a > b → getDelta a b = " ▼ " ++ fmtInt b) ∧
    (a < b → getDelta a b = " ▲ " ++ fmtInt a) ∧
    (a = b → getDelta a b = "") := by
  refine ⟨fun h => ?_, fun h => ?_, fun h => ?_⟩
  · simp [getDelta, h]
  · have h' : ¬ a > b := by omega
    simp [getDelta, h, h']
  · subst h
    simp [getDelta]

theorem getDelta_cases_witness :
    ((7 : Int) > 3 ∧ getDelta 7 3 = " ▼ " ++ fmtInt 3) ∧
    ((3 : Int) < 7 ∧ getDelta 3 7 = " ▲ " ++ fmtInt 3) ∧
    ((5 : Int) = 5 ∧ getDelta 5 5 = "") :=
  ⟨⟨by decide, (getDelta_cases 7 3).1 (by decide)⟩,
    ⟨by decide, (getDelta_cases 3 7).2.1 (by decide)⟩,
    ⟨rfl, (getDelta_cases 5 5).2.2 rfl⟩⟩

/-- C4: `rankToColour` returns the documented colour for each of the ten named
tiers and `0xFFFFFF` for every other string, among them other capitalisations, names
with surrounding white space and the empty string; every result is a 24-bit value. -/
theorem rankToColour_table :
    rankToColour "Unranked" = 0x797373 ∧ rankToColour "Iron" = 0x3b3b3b ∧
    rankToColour "Bronze" = 0x69450d ∧ rankToColour "Silver" = 0xbbbfbe ∧
    rankToColour "Gold" = 0xdd9623 ∧ rankToColour "Platinum" = 0x328d9e ∧
    rankToColour "Diamond" = 0xd781e9 ∧ rankToColour "Ascendant" = 0x1e8a51 ∧
    rankToColour "Immortal" = 0xb02639 ∧ rankToColour "Radiant" = 0xfce29b ∧
    (∀ rank : String, rank ∉ knownTiers → rankToColour rank = 0xFFFFFF) ∧
    rankToColour "gold" = 0xFFFFFF ∧ rankToColour "GOLD" = 0xFFFFFF ∧
    rankToColour " Gold" = 0xFFFFFF ∧ rankToColour "Gold " = 0xFFFFFF ∧
    rankToColour "" = 0xFFFFFF ∧
    (∀ rank : String, 0 ≤ rankToColour rank ∧ rankToColour rank < 2 ^ 24) := by
  refine ⟨by decide, by decide, by decide, by decide, by decide, by decide, by decide,
    by decide, by decide, by decide, ?_, by decide, by decide, by decide, by decide,
    by decide, ?_⟩
  · intro rank h
    simp only [knownTiers, List.mem_cons, List.mem_singleton, not_or, List.not_mem_nil,
      or_false] at h
    obtain ⟨h1, h2, h3, h4, h5, h6, h7, h8, h9, h10⟩ := h
    simp [rankToColour, h1, h2, h3, h4, h5, h6, h7, h8, h9, h10]
  · intro rank
    unfold rankToColour
    split_ifs <;> constructor <;> norm_num

theorem rankToColour_table_witness :
    "Challenger" ∉ knownTiers ∧ rankToColour "Challenger" = 0xFFFFFF :=
  ⟨by decide, rankToColour_table.2.2.2.2.2.2.2.2.2.2.1 "Challenger" (by decide)⟩

/-- C5: when the options are present, every call succeeds and the decoded name is not
empty, `valrank` returns normally and the one embed it sends has the colour
`rankToColour` gives for the part of the tier string before its first space; taking
the first element of `strings.Split(tier, " ")` succeeds for every tier string, the
empty one and those without a space included; the tier `Gold 2` gives `0xdd9623`. -/
theorem valrank_colour_of_first_word (w : World Response) (region username tag : String)
    (hr : optionMap w.options "region" = some region)
    (hu : optionMap w.options "username" = some username)
    (ht : optionMap w.options "tag" = some tag)
    (henv : w.dotenvLoads = true) (hget : w.httpErr = none)
    (hdec : w.unmarshal.2 = none) (hname : w.unmarshal.1.Data.Name ≠ "") :
    (valrank w).run.outcome = Outcome.returned ∧
    (valrank w).run.edits.map MessageEmbed.Color =
      [rankToColour (firstWord w.unmarshal.1.Data.CurrentData.CurrentTierPatched)] ∧
    (∀ tier : String, (Split tier ' ').head? = some (firstWord tier)) ∧
    firstWord "" = "" ∧ firstWord "Radiant" = "Radiant" ∧ firstWord "Gold 2" = "Gold" ∧
    rankToColour (firstWord "Gold 2") = 0xdd9623 := by
  obtain ⟨h1, _, h3⟩ := valrank_run_found w region username tag hr hu ht henv hget hdec hname
  refine ⟨h1, ?_, Split_head, by decide, by decide, by decide, by decide⟩
  rw [h3]
  rfl

theorem valrank_colour_of_first_word_witness :
    (valrank (valWorld (valResponse "Foo" "1234" "Gold 2"))).run.outcome = Outcome.returned ∧
    (valrank (valWorld (valResponse "Foo" "1234" "Gold 2"))).run.edits.map
      MessageEmbed.Color = [0xdd9623] :=
  have h := valrank_colour_of_first_word (valWorld (valResponse "Foo" "1234" "Gold 2"))
    "eu" "Foo" "1234" (by decide) (by decide) (by decide) rfl rfl rfl (by decide)
  ⟨h.1, h.2.1⟩

/-- C6: when `valrank` is invoked with options `region`, `username` and `tag`, every
call succeeds and the decoded `data.name` is empty, the handler returns after sending
exactly one embed, titled `Failed to get ranks for <username>#<tag>` with the option
values, without description and without colour. -/
theorem valrank_player_not_found (w : World Response) (region username tag : String)
    (hr : optionMap w.options "region" = some region)
    (hu : optionMap w.options "username" = some username)
    (ht : optionMap w.options "tag" = some tag)
    (henv : w.dotenvLoads = true) (hget : w.httpErr = none)
    (hdec : w.unmarshal.2 = none) (hname : w.unmarshal.1.Data.Name = "") :
    (valrank w).run.outcome = Outcome.returned ∧
    (valrank w).run.edits =
      [{ Title := "Failed to get ranks for " ++ username ++ "#" ++ tag,
         Description := "", Color := 0 }] := by
  obtain ⟨h1, _, h3⟩ :=
    valrank_run_notFound w region username tag hr hu ht henv hget hdec hname
  exact ⟨h1, h3⟩

theorem valrank_player_not_found_witness :
    (valrank (valWorld (valResponse "" "" ""))).run.outcome = Outcome.returned ∧
    (valrank (valWorld (valResponse "" "" ""))).run.edits =
      [{ Title := "Failed to get ranks for Foo#1234", Description := "", Color := 0 }] :=
  valrank_player_not_found (valWorld (valResponse "" "" "")) "eu" "Foo" "1234"
    (by decide) (by decide) (by decide) rfl rfl rfl rfl

/-- C7: when the body does not decode, `valrank` logs the error and ends the process
without sending any edit, and when `http.Get` returns a transport error `rlrank` does
the same: no failure output is sent and the process is terminated. -/
theorem fetch_failure_ends_process (U : UnicodeTables) :
    (valrank decodeFailureWorld).run =
      { outcome := Outcome.exited,
        events := [Event.deferredResponse, Event.httpGet,
                   Event.logFatal "unexpected end of JSON input"] } ∧
    (valrank decodeFailureWorld).run.edits = [] ∧
    (rlrank U transportFailureWorld).run =
      { outcome := Outcome.exited,
        events := [Event.deferredResponse, Event.httpGet,
                   Event.logFatal "dial tcp: connection refused"] } ∧
    (rlrank U transportFailureWorld).run.edits = [] :=
  ⟨rfl, rfl, rfl, rfl⟩

/-- C8, as stated, fails: a `valrank` invocation without the `region` option ends the
process after the deferred acknowledgment and sends no edit. -/
theorem valrank_missing_option_sends_no_edit :
    (valrank missingRegionWorld).run =
      { outcome := Outcome.exited,
        events := [Event.deferredResponse, Event.logFatal "Error getting region"] } ∧
    (valrank missingRegionWorld).run.edits.length ≠ 1 := by
  decide

/-- C8, amended: on every path through `rlrank` and `valrank` at most one response
edit is sent; and when the required options are present, `.env` loads, `http.Get`
returns no error and the body decodes (the name empty or not), the handler returns
after sending exactly one edit, which follows the deferred acknowledgment. -/
theorem one_edit_when_fetch_succeeds (U : UnicodeTables) :
    (∀ w : World RLResponse, (rlrank U w).run.edits.length ≤ 1) ∧
    (∀ w : World Response, (valrank w).run.edits.length ≤ 1) ∧
    (∀ (w : World RLResponse) (platform username : String),
      optionMap w.options "platform" = some platform →
      optionMap w.options "username" = some username →
      w.dotenvLoads = true → w.httpErr = none → w.unmarshal.2 = none →
      (rlrank U w).run.outcome = Outcome.returned ∧
      (rlrank U w).run.events.head? = some Event.deferredResponse ∧
      (rlrank U w).run.edits.length = 1) ∧
    (∀ (w : World Response) (region username tag : String),
      optionMap w.options "region" = some region →
      optionMap w.options "username" = some username →
      optionMap w.options "tag" = some tag →
      w.dotenvLoads = true → w.httpErr = none → w.unmarshal.2 = none →
      (valrank w).run.outcome = Outcome.returned ∧
      (valrank w).run.events.head? = some Event.deferredResponse ∧
      (valrank w).run.edits.length = 1) := by
  refine ⟨rlrank_edits_le_one U, valrank_edits_le_one, ?_, ?_⟩
  · intro w platform username hp hu henv hget hdec
    obtain ⟨h1, h2, h3⟩ := rlrank_run_ok U w platform username hp hu henv hget hdec
    exact ⟨h1, h2, by rw [h3]; rfl⟩
  · intro w region username tag hr hu ht henv hget hdec
    by_cases hname : w.unmarshal.1.Data.Name = ""
    · obtain ⟨h1, h2, h3⟩ :=
        valrank_run_notFound w region username tag hr hu ht henv hget hdec hname
      exact ⟨h1, h2, by rw [h3]; rfl⟩
    · obtain ⟨h1, h2, h3⟩ :=
        valrank_run_found w region username tag hr hu ht henv hget hdec hname
      exact ⟨h1, h2, by rw [h3]; rfl⟩

theorem one_edit_when_fetch_succeeds_witness :
    ((rlrank latin1Tables (rlWorld scenarioOne)).run.outcome = Outcome.returned ∧
      (rlrank latin1Tables (rlWorld scenarioOne)).run.events.head?
        = some Event.deferredResponse ∧
      (rlrank latin1Tables (rlWorld scenarioOne)).run.edits.length = 1) ∧
    ((valrank (valWorld (valResponse "Foo" "1234" "Gold 2"))).run.outcome
        = Outcome.returned ∧
      (valrank (valWorld (valResponse "Foo" "1234" "Gold 2"))).run.events.head?
        = some Event.deferredResponse ∧
      (valrank (valWorld (valResponse "Foo" "1234" "Gold 2"))).run.edits.length = 1) :=
  ⟨(one_edit_when_fetch_succeeds latin1Tables).2.2.1 (rlWorld scenarioOne) "steam" "Foo"
      (by decide) (by decide) rfl rfl rfl,
    (one_edit_when_fetch_succeeds latin1Tables).2.2.2
      (valWorld (valResponse "Foo" "1234" "Gold 2")) "eu" "Foo" "1234"
      (by decide) (by decide) (by decide) rfl rfl rfl⟩

/-- C9: playlist formatting is idempotent on formatted input: if `s` is the
formatting of some `t` and holds neither an underscore nor a lowercase `v`, then
formatting `s` gives `s`.  The case tables above ASCII are a parameter, taken to be
stable under title-casing. -/
theorem formatPlaylist_idempotent (U : UnicodeTables) (hU : U.CaseStable) (t s : String)
    (hs : s = formatPlaylist U t) (h1 : '_' ∉ s.data) (h2 : 'v' ∉ s.data) :
    formatPlaylist U s = s := by
  subst hs
  rw [formatPlaylist_of_clean U _ h1 h2]
  simp only [formatPlaylist, Title]
  rw [titleMap_idem U hU _ ' ' ' ' rfl]

theorem formatPlaylist_idempotent_witness :
    "Été 2V2" = formatPlaylist latin1Tables "été_2v2" ∧
    formatPlaylist latin1Tables "Été 2V2" = "Été 2V2" :=
  ⟨by decide,
    formatPlaylist_idempotent latin1Tables latin1Tables_caseStable "été_2v2" "Été 2V2"
      (by decide) (by decide) (by decide)⟩

/-- C10: the result of `getDelta` depends on `b` alone when `a > b`, and on `a` alone
when `a < b`. -/
theorem getDelta_depends_on_one_input :
    (∀ a a' b : Int, a > b → a' > b → getDelta a b = getDelta a' b) ∧
    (∀ a b b' : Int, a < b → a < b' → getDelta a b = getDelta a b') := by
  constructor
  · intro a a' b h h'
    simp [getDelta, h, h']
  · intro a b b' h h'
    have n : ¬ a > b := by omega
    have n' : ¬ a > b' := by omega
    simp [getDelta, h, h', n, n']

theorem getDelta_depends_on_one_input_witness :
    getDelta 7 3 = getDelta 9 3 ∧ getDelta 3 7 = getDelta 3 9 :=
  ⟨getDelta_depends_on_one_input.1 7 9 3 (by decide) (by decide),
    getDelta_depends_on_one_input.2 3 7 9 (by decide) (by decide)⟩

end DiscordGo
